import Mathlib

set_option maxRecDepth 100000

/-
  Verification development for the next-intl source parser
  (src/utils/nextIntlSrcParser.ts).

  The TypeScript syntax tree is embedded shallowly as the mutual inductive
  `Node`: each constructor corresponds to one of the ts.* node kinds the
  parser inspects (identifier, string literal, template expression, call
  expression, property access, await expression, array literal, object
  literal, property assignment, shorthand property, parameter, type markers,
  arrow function, variable declaration, array binding pattern, binding
  element, omitted expression, expression statement, variable statement,
  function declaration, block, return statement), plus a generic `otherNode`
  for every other kind.  Child traversal (ts.forEachChild) is realised per
  constructor inside the visitors, preserving child order; identifier
  children that the parser never reacts to (e.g. the name part of a property
  access) are skipped, which is behaviourally identical because visiting a
  bare identifier performs no action.  Template-expression substitutions and
  leading comments are not modelled: no verified property involves
  translator calls nested inside a template literal or the comment-derived
  key path.  `ONode` is an Option clone kept inside the mutual block so that
  all traversals are structurally recursive (hence kernel-computable).
-/

mutual
inductive Node where
  | ident (name : String)
  | strLit (value : String)
  | template
  | call (callee : Node) (args : NodeList)
  | propAccess (obj : Node) (propName : String)
  | awaitE (e : Node)
  | arrayLit (elems : NodeList)
  | objLit (props : NodeList)
  | propAssign (pname : Node) (pinit : Node)
  | shorthandProp (name : String)
  | param (pname : Node) (ptype : ONode)
  | tyFunc
  | tyRef
  | tyOther
  | arrow (params : NodeList) (body : Node)
  | varDecl (dname : Node) (dinit : ONode)
  | arrayBinding (elems : NodeList)
  | bindingElem (bname : Node)
  | omittedExpr
  | exprStmt (e : Node)
  | varStmt (decls : NodeList)
  | funcDecl (body : NodeList)
  | block (stmts : NodeList)
  | retStmt (e : ONode)
  | otherNode (kids : NodeList)

inductive NodeList where
  | nil
  | cons (hd : Node) (tl : NodeList)

inductive ONode where
  | none
  | some (n : Node)
end

def NodeList.ofList : List Node → NodeList
  | [] => .nil
  | n :: l => .cons n (NodeList.ofList l)

def NodeList.toList : NodeList → List Node
  | .nil => []
  | .cons h t => h :: NodeList.toList t

def NodeList.headOpt : NodeList → Option Node
  | .nil => Option.none
  | .cons h _ => Option.some h

def NodeList.getOpt : NodeList → Nat → Option Node
  | .nil, _ => Option.none
  | .cons h _, 0 => Option.some h
  | .cons _ t, n + 1 => NodeList.getOpt t n

/-
  Data model, mirroring the TypeScript structures.

  `FunctionWithTParam` is one registry entry of Pass 1 (fields functionName,
  paramName, keysUsed).  `NsFrame` is one entry of Pass 2's namespace stack
  (the source's inline type Namespace with fields name, variable, dynamic;
  `variable` is a Lean keyword so the field is called `varName`, and the
  optional boolean `dynamic` is a Bool defaulting to false at creation).
  `FoundKey` flattens the source's { key, meta: { file, namespace?,
  dynamic? } } records: `ns` is the optional meta.namespace and `dyn` is
  meta.dynamic with absence encoded as false.
-/

structure FunctionWithTParam where
  functionName : String
  paramName : String
  keysUsed : List String
deriving DecidableEq, Repr

structure NsFrame where
  name : String
  varName : String
  dynamic : Bool
deriving DecidableEq, Repr

structure FoundKey where
  key : String
  file : String
  ns : Option String
  dyn : Bool
deriving DecidableEq, Repr

/- Pass-2 mutable state: the namespace stack and the output list. -/
structure St where
  namespaces : List NsFrame
  foundKeys : List FoundKey
deriving DecidableEq, Repr

structure SourceFile where
  path : String
  stmts : NodeList

/-
  Stack helpers, one per closure of getKeys (source lines 118-148).
-/

/- Source lines 118-123: slice of the top `range` frames, null when empty. -/
def getCurrentNamespaces (namespaces : List NsFrame) (range : Nat) :
    Option (List NsFrame) :=
  if namespaces.length > 0 then
    Option.some (namespaces.drop (namespaces.length - range))
  else Option.none

/- Source lines 125-129: innermost-first scan for the bound variable. -/
def getCurrentNamespaceForIdentifier (namespaces : List NsFrame)
    (name : String) : Option NsFrame :=
  namespaces.reverse.find? (fun f => f.varName == name)

/- Source lines 131-133. -/
def pushNamespace (st : St) (f : NsFrame) : St :=
  { st with namespaces := st.namespaces ++ [f] }

/- Source lines 135-142: flip dynamic on every frame with a matching name. -/
def setNamespaceAsDynamic (namespaces : List NsFrame) (name : String) :
    List NsFrame :=
  namespaces.map (fun f =>
    if f.name == name then { f with dynamic := true } else f)

/- Source lines 144-148. -/
def removeNamespaces (namespaces : List NsFrame) (range : Nat) :
    List NsFrame :=
  if namespaces.length > 0 then
    namespaces.take (namespaces.length - range)
  else namespaces

/- JS template `ns ? ns + "." + k : k` (empty string is falsy). -/
def combineKey (nsp k : String) : String :=
  if nsp == "" then k else nsp ++ "." ++ k

/-
  Pass 1 (source lines 31-99): collect functions whose first parameter is
  function- or type-reference-typed, recording the string-literal keys
  passed to that parameter inside the body.
-/

def isFuncOrRefTy : Node → Bool
  | .tyFunc => true
  | .tyRef => true
  | _ => false

/- The check of visitFunctionBody (source lines 70-79) at a single node. -/
def tKeyAt (paramName : String) (n : Node) : List String :=
  match n with
  | .call (.ident f) args =>
    if f == paramName then
      match args.headOpt with
      | Option.some (.strLit s) => [s]
      | _ => []
    else []
  | _ => []

mutual
/-
  visitFunctionBody's recursion (source line 80): apply the check to every
  child of `n` and recurse.  The scan of a body starts here — i.e. at the
  body's children, mirroring ts.forEachChild(node.initializer.body, ...)
  on source line 84, so the body root itself is never checked.
-/
def collectBodyKids (paramName : String) (n : Node) : List String :=
  match n with
  | .ident _ | .strLit _ | .template | .tyFunc | .tyRef | .tyOther
  | .omittedExpr | .shorthandProp _ => []
  | .call callee args =>
    (tKeyAt paramName callee ++ collectBodyKids paramName callee)
      ++ collectBodyList paramName args
  | .propAccess obj _ => tKeyAt paramName obj ++ collectBodyKids paramName obj
  | .awaitE e => tKeyAt paramName e ++ collectBodyKids paramName e
  | .arrayLit es | .objLit es | .arrayBinding es | .varStmt es
  | .funcDecl es | .block es | .otherNode es => collectBodyList paramName es
  | .propAssign pn pi =>
    (tKeyAt paramName pn ++ collectBodyKids paramName pn)
      ++ (tKeyAt paramName pi ++ collectBodyKids paramName pi)
  | .param pn pt =>
    (tKeyAt paramName pn ++ collectBodyKids paramName pn)
      ++ collectBodyONode paramName pt
  | .arrow ps b =>
    collectBodyList paramName ps
      ++ (tKeyAt paramName b ++ collectBodyKids paramName b)
  | .varDecl dn di =>
    (tKeyAt paramName dn ++ collectBodyKids paramName dn)
      ++ collectBodyONode paramName di
  | .bindingElem bn => tKeyAt paramName bn ++ collectBodyKids paramName bn
  | .exprStmt e => tKeyAt paramName e ++ collectBodyKids paramName e
  | .retStmt e => collectBodyONode paramName e

def collectBodyList (paramName : String) : NodeList → List String
  | .nil => []
  | .cons h t =>
    (tKeyAt paramName h ++ collectBodyKids paramName h)
      ++ collectBodyList paramName t

def collectBodyONode (paramName : String) : ONode → List String
  | .none => []
  | .some n => tKeyAt paramName n ++ collectBodyKids paramName n
end

/-
  The registration step of Pass 1's visit (source lines 43-93): a variable
  declaration whose initializer is an arrow function whose first parameter
  is an identifier with a function-type or type-reference annotation is
  registered, provided the body scan found at least one key.
-/
def registerAt (n : Node) (acc : List FunctionWithTParam) :
    List FunctionWithTParam :=
  match n with
  | .varDecl (.ident functionName) (.some (.arrow params body)) =>
    match params.headOpt with
    | Option.some (.param (.ident paramName) (.some pty)) =>
      if isFuncOrRefTy pty then
        let keysUsed := collectBodyKids paramName body
        if keysUsed.isEmpty then acc
        else acc ++ [⟨functionName, paramName, keysUsed⟩]
      else acc
    | _ => acc
  | _ => acc

mutual
/- Pass 1's visit (source lines 41-96): register, then recurse. -/
def collectVisit (n : Node) (acc : List FunctionWithTParam) :
    List FunctionWithTParam :=
  let acc1 := registerAt n acc
  match n with
  | .ident _ | .strLit _ | .template | .tyFunc | .tyRef | .tyOther
  | .omittedExpr | .shorthandProp _ => acc1
  | .call callee args => collectVisitList args (collectVisit callee acc1)
  | .propAccess obj _ => collectVisit obj acc1
  | .awaitE e => collectVisit e acc1
  | .arrayLit es | .objLit es | .arrayBinding es | .varStmt es
  | .funcDecl es | .block es | .otherNode es => collectVisitList es acc1
  | .propAssign pn pi => collectVisit pi (collectVisit pn acc1)
  | .param pn pt => collectVisitONode pt (collectVisit pn acc1)
  | .arrow ps b => collectVisit b (collectVisitList ps acc1)
  | .varDecl dn di => collectVisitONode di (collectVisit dn acc1)
  | .bindingElem bn => collectVisit bn acc1
  | .exprStmt e => collectVisit e acc1
  | .retStmt e => collectVisitONode e acc1

def collectVisitList : NodeList → List FunctionWithTParam →
    List FunctionWithTParam
  | .nil, acc => acc
  | .cons h t, acc => collectVisitList t (collectVisit h acc)

def collectVisitONode : ONode → List FunctionWithTParam →
    List FunctionWithTParam
  | .none, acc => acc
  | .some n, acc => collectVisit n acc
end

/- Source lines 32-99 applied to a file's top-level statements. -/
def collectFunctionsWithTParam (stmts : NodeList) :
    List FunctionWithTParam :=
  collectVisitList stmts []

/-
  Pass 2 (source lines 101-499).  The visitor's per-node actions are split
  into step functions in source order; `visit` applies them, recurses into
  the children, and performs the function-like scope exit.
-/

def isGetTranslationsCall : Node → Bool
  | .call (.ident f) _ => f == "getTranslations"
  | _ => false

/-
  Source lines 158-281: translator-acquisition handling on a variable
  declaration.  Three sequential recognisers:
  (A) var = useTranslations(arg)            (lines 158-175)
  (B) var = await getTranslations(arg)      (lines 187-217)
  (C) [.., var, ..] = await f([.., getTranslations(arg), ..]) (lines 226-279)
-/
def stepVarDecl (n : Node) (st : St) : St :=
  match n with
  | .varDecl dname dinit =>
    let st1 :=
      match dinit with
      | .some (.call (.ident callee) args) =>
        if callee == "useTranslations" then
          let vname := match dname with | .ident s => s | _ => "t"
          match args.headOpt with
          | Option.some (.strLit s) => pushNamespace st ⟨s, vname, false⟩
          | Option.some _ => st
          | Option.none => pushNamespace st ⟨"", vname, false⟩
        else st
      | _ => st
    match dinit with
    | .some (.awaitE aw) =>
      let st2 :=
        match aw with
        | .call (.ident callee) args =>
          if callee == "getTranslations" then
            let vname := match dname with | .ident s => s | _ => "t"
            match args.headOpt with
            | Option.some (.objLit props) =>
              props.toList.foldl (fun acc p =>
                match p with
                | .propAssign (.ident pn) (.strLit s) =>
                  if pn == "namespace" then
                    pushNamespace acc ⟨s, vname, false⟩
                  else pushNamespace acc ⟨"", vname, false⟩
                | _ => pushNamespace acc ⟨"", vname, false⟩) st1
            | Option.some (.strLit s) => pushNamespace st1 ⟨s, vname, false⟩
            | Option.some _ => st1
            | Option.none => pushNamespace st1 ⟨"", vname, false⟩
          else st1
        | _ => st1
      match aw with
      | .call _ cargs =>
        match cargs.headOpt with
        | Option.some (.arrayLit elems) =>
          match elems.toList.findIdx? isGetTranslationsCall with
          | Option.some idx =>
            match dname with
            | .arrayBinding belems =>
              match belems.getOpt idx with
              | Option.some (.bindingElem (.ident vname)) =>
                let argOpt : Option Node :=
                  match elems.getOpt idx with
                  | Option.some (.call _ gargs) => gargs.headOpt
                  | _ => Option.none
                match argOpt with
                | Option.some (.objLit props) =>
                  props.toList.foldl (fun acc p =>
                    match p with
                    | .propAssign (.ident pn) (.strLit s) =>
                      if pn == "namespace" then
                        pushNamespace acc ⟨s, vname, false⟩
                      else acc
                    | _ => acc) st2
                | Option.some (.strLit s) => pushNamespace st2 ⟨s, vname, false⟩
                | Option.some _ => st2
                | Option.none => pushNamespace st2 ⟨"", vname, false⟩
              | _ => st2
            | _ => st2
          | Option.none => st2
        | _ => st2
      | _ => st2
    | _ => st1
  | _ => st

/-
  Source lines 285-332: indirect extraction through the Pass-1 registry.
  The registry lookup is Array.prototype.find, i.e. the first matching
  record.
-/
def stepHelperCall (reg : List FunctionWithTParam) (file : String)
    (n : Node) (st : St) : St :=
  match n with
  | .call (.ident calledFunctionName) args =>
    match reg.find? (fun f => f.functionName == calledFunctionName) with
    | Option.some tracked =>
      match args.headOpt with
      | Option.some arg =>
        let st1 :=
          match arg with
          | .call (.ident utName) utArgs =>
            if utName == "useTranslations" then
              match utArgs.headOpt with
              | Option.some (.strLit nsp) =>
                tracked.keysUsed.foldl (fun acc k =>
                  { acc with foundKeys := acc.foundKeys ++
                      [⟨combineKey nsp k, file, Option.some nsp, false⟩] }) st
              | _ => st
            else st
          | _ => st
        match arg with
        | .ident variableName =>
          match getCurrentNamespaceForIdentifier st1.namespaces
              variableName with
          | Option.some fr =>
            tracked.keysUsed.foldl (fun acc k =>
              { acc with foundKeys := acc.foundKeys ++
                  [⟨combineKey fr.name k, file, Option.some fr.name,
                    false⟩] }) st1
          | Option.none => st1
        | _ => st1
      | Option.none => st
    | Option.none => st
  | _ => st

/-
  Source lines 339-382: inline chained calls on an expression statement.
  For useTranslations(lit)(lit) (lines 343-353) only the local
  inlineNamespace is assigned and no key is pushed — the emission exists
  only in the property-access branch (lines 354-380).
-/
def stepInline (file : String) (n : Node) (st : St) : St :=
  match n with
  | .exprStmt (.call ce cargs) =>
    match ce with
    | .propAccess (.call (.ident utName) utArgs) _ =>
      if utName == "useTranslations" then
        let inl : Option String :=
          match utArgs.headOpt with
          | Option.some (.strLit s) => Option.some s
          | _ => Option.none
        match cargs.headOpt with
        | Option.some (.strLit k) =>
          if k == "" then st
          else
            { st with foundKeys := st.foundKeys ++
                [{ key := match inl with
                          | Option.some nsp => combineKey nsp k
                          | Option.none => k,
                   file := file, ns := inl, dyn := false }] }
        | _ => st
      else st
    | _ => st
  | _ => st

/-
  Source lines 385-423: direct t(arg) and t.m(arg) calls.  Returns the
  pending key (key name and callee identifier) together with the state,
  in which the namespace may have been marked dynamic.  Both branches are
  guarded by getCurrentNamespaces() being non-null, i.e. a non-empty stack.
-/
def stepTCalls (n : Node) (st : St) : Option (String × String) × St :=
  if (getCurrentNamespaces st.namespaces 1).isSome then
    match n with
    | .call (.ident v) args =>
      match getCurrentNamespaceForIdentifier st.namespaces v with
      | Option.some fr =>
        match args.headOpt with
        | Option.some (.strLit s) => (Option.some (s, v), st)
        | Option.some (.ident _) =>
          (Option.none,
            { st with namespaces :=
                setNamespaceAsDynamic st.namespaces fr.name })
        | Option.some .template =>
          (Option.none,
            { st with namespaces :=
                setNamespaceAsDynamic st.namespaces fr.name })
        | _ => (Option.none, st)
      | Option.none => (Option.none, st)
    | .call (.propAccess (.ident v) _) args =>
      match getCurrentNamespaceForIdentifier st.namespaces v with
      | Option.some fr =>
        match args.headOpt with
        | Option.some (.strLit s) => (Option.some (s, v), st)
        | Option.some (.ident _) =>
          (Option.none,
            { st with namespaces :=
                setNamespaceAsDynamic st.namespaces fr.name })
        | Option.some .template =>
          (Option.none,
            { st with namespaces :=
                setNamespaceAsDynamic st.namespaces fr.name })
        | _ => (Option.none, st)
      | Option.none => (Option.none, st)
    | _ => (Option.none, st)
  else (Option.none, st)

/- Source lines 425-432: emit the pending key. -/
def stepEmitKey (file : String) (pending : Option (String × String))
    (st : St) : St :=
  match pending with
  | Option.some (kname, identName) =>
    let nsName :=
      match getCurrentNamespaceForIdentifier st.namespaces identName with
      | Option.some fr => fr.name
      | Option.none => ""
    { st with foundKeys := st.foundKeys ++
        [⟨combineKey nsName kname, file, Option.some nsName, false⟩] }
  | Option.none => st

/- Steps in source order (lines 158-432); comment handling is not modelled. -/
def processNode (reg : List FunctionWithTParam) (file : String) (n : Node)
    (st : St) : St :=
  let st1 := stepVarDecl n st
  let st2 := stepHelperCall reg file n st1
  let st3 := stepInline file n st2
  let p := stepTCalls n st3
  stepEmitKey file p.1 p.2

def isFunctionLike : Node → Bool
  | .arrow _ _ => true
  | .funcDecl _ => true
  | _ => false

/-
  Source lines 474-493: on leaving a function-like node that introduced
  frames, emit a dynamic placeholder per dynamic frame introduced in its
  subtree, then pop exactly those frames.
-/
def scopeExit (file : String) (initLen : Nat) (st : St) : St :=
  if st.namespaces.length > initLen then
    let added :=
      (getCurrentNamespaces st.namespaces
        (st.namespaces.length - initLen)).getD []
    let placeholders :=
      (added.filter (fun f => f.dynamic)).map
        (fun f => (⟨f.name, file, Option.some f.name, true⟩ : FoundKey))
    { namespaces :=
        removeNamespaces st.namespaces (st.namespaces.length - initLen),
      foundKeys := st.foundKeys ++ placeholders }
  else st

mutual
/- The visitor of getKeys (source lines 150-494). -/
def visit (reg : List FunctionWithTParam) (file : String) (n : Node)
    (st : St) : St :=
  let initLen := st.namespaces.length
  let st1 := processNode reg file n st
  let st2 :=
    match n with
    | .ident _ | .strLit _ | .template | .tyFunc | .tyRef | .tyOther
    | .omittedExpr | .shorthandProp _ => st1
    | .call callee args => visitList reg file args (visit reg file callee st1)
    | .propAccess obj _ => visit reg file obj st1
    | .awaitE e => visit reg file e st1
    | .arrayLit es | .objLit es | .arrayBinding es | .varStmt es
    | .funcDecl es | .block es | .otherNode es => visitList reg file es st1
    | .propAssign pn pi => visit reg file pi (visit reg file pn st1)
    | .param pn pt => visitONode reg file pt (visit reg file pn st1)
    | .arrow ps b => visit reg file b (visitList reg file ps st1)
    | .varDecl dn di => visitONode reg file di (visit reg file dn st1)
    | .bindingElem bn => visit reg file bn st1
    | .exprStmt e => visit reg file e st1
    | .retStmt e => visitONode reg file e st1
  if isFunctionLike n then scopeExit file initLen st2 else st2

def visitList (reg : List FunctionWithTParam) (file : String) :
    NodeList → St → St
  | .nil, st => st
  | .cons h t, st => visitList reg file t (visit reg file h st)

def visitONode (reg : List FunctionWithTParam) (file : String) :
    ONode → St → St
  | .none, st => st
  | .some n, st => visit reg file n st
end

/- Source lines 102-499: run the visitor over a file's statements. -/
def getKeys (reg : List FunctionWithTParam) (file : String)
    (stmts : NodeList) : List FoundKey :=
  (visitList reg file stmts ⟨[], []⟩).foundKeys

/-
  Extraction result ordering (source lines 26-28): .sort with the
  comparator (a, b) => a.key > b.key ? 1 : -1.  The comparator is
  non-positive exactly when NOT (a.key > b.key); the sort is modelled as a
  stable insertion sort placing a before b whenever the comparator keeps
  that order.
-/
def sortComparatorLe (a b : FoundKey) : Bool :=
  !(decide (b.key < a.key))

def insertKeySorted (a : FoundKey) : List FoundKey → List FoundKey
  | [] => [a]
  | b :: l =>
    if sortComparatorLe a b then a :: b :: l else b :: insertKeySorted a l

def sortFoundKeys : List FoundKey → List FoundKey
  | [] => []
  | a :: l => insertKeySorted a (sortFoundKeys l)

/-
  Source lines 16-29: reset the registry, run Pass 1 over all files, then
  Pass 2 over all files, concatenate and sort.
-/
def extract (files : List SourceFile) : List FoundKey :=
  let reg := files.foldl
    (fun acc f => acc ++ collectFunctionsWithTParam f.stmts) []
  sortFoundKeys (files.flatMap (fun f => getKeys reg f.path f.stmts))

/- Ordering relation of the final output: ordinal comparison of keys. -/
abbrev keyLe (a b : FoundKey) : Prop := a.key ≤ b.key

/- Shorthand for building statement lists of embedded programs. -/
def nl : List Node → NodeList := NodeList.ofList

/-
  Concrete embedded programs used by the claim theorems.  Each definition
  is the syntax tree of the TypeScript snippet quoted in its comment.
-/

/- `useTranslations("ns1")("one");` as a lone expression statement. -/
def c1DirectFile : SourceFile :=
  ⟨"inline.tsx", nl [.exprStmt (.call
    (.call (.ident "useTranslations") (nl [.strLit "ns1"]))
    (nl [.strLit "one"]))]⟩

/- `useTranslations("ns1").rich("one");` as a lone expression statement. -/
def c1MethodFile : SourceFile :=
  ⟨"inline.tsx", nl [.exprStmt (.call
    (.propAccess (.call (.ident "useTranslations") (nl [.strLit "ns1"]))
      "rich")
    (nl [.strLit "one"]))]⟩

/- `const schema = (t) => t('required')` — no type annotation on `t`. -/
def c2UntypedHelperFile : SourceFile :=
  ⟨"schema.tsx", nl [.varStmt (nl [.varDecl (.ident "schema")
    (.some (.arrow (nl [.param (.ident "t") .none])
      (.call (.ident "t") (nl [.strLit "required"]))))])]⟩

/- `const schema = (t: (key: string) => string) => t('required')` —
   annotated, but the whole expression body is the translator call. -/
def c2TypedExprBodyHelperFile : SourceFile :=
  ⟨"schema.tsx", nl [.varStmt (nl [.varDecl (.ident "schema")
    (.some (.arrow (nl [.param (.ident "t") (.some .tyFunc)])
      (.call (.ident "t") (nl [.strLit "required"]))))])]⟩

/- `const schema = (t: (key: string) => string) => { return t('required'); }` -/
def c2TypedHelperFile : SourceFile :=
  ⟨"schema.tsx", nl [.varStmt (nl [.varDecl (.ident "schema")
    (.some (.arrow (nl [.param (.ident "t") (.some .tyFunc)])
      (.block (nl [.retStmt (.some (.call (.ident "t")
        (nl [.strLit "required"])))]))))])]⟩

/- `schema(useTranslations('Form'));` -/
def c2UseFile : SourceFile :=
  ⟨"use.tsx", nl [.exprStmt (.call (.ident "schema")
    (nl [.call (.ident "useTranslations") (nl [.strLit "Form"])]))]⟩

/- `const t = useTranslations(ns)` — identifier argument. -/
def c3UseNonLit : Node :=
  .varDecl (.ident "t")
    (.some (.call (.ident "useTranslations") (nl [.ident "ns"])))

/- `const t = await getTranslations(ns)` — identifier argument. -/
def c3GetNonLit : Node :=
  .varDecl (.ident "t")
    (.some (.awaitE (.call (.ident "getTranslations") (nl [.ident "ns"]))))

/- `const t = useTranslations()` — absent argument. -/
def c3UseAbsent : Node :=
  .varDecl (.ident "t")
    (.some (.call (.ident "useTranslations") NodeList.nil))

/- `const t = await getTranslations()` — absent argument. -/
def c3GetAbsent : Node :=
  .varDecl (.ident "t")
    (.some (.awaitE (.call (.ident "getTranslations") NodeList.nil)))

/- `const h = (t: (key: string) => string) => { return t('k1'); }` -/
def c4Helper1 : SourceFile :=
  ⟨"h1.tsx", nl [.varStmt (nl [.varDecl (.ident "h")
    (.some (.arrow (nl [.param (.ident "t") (.some .tyFunc)])
      (.block (nl [.retStmt (.some (.call (.ident "t")
        (nl [.strLit "k1"])))]))))])]⟩

/- A second file redefining `h` with key 'k2'. -/
def c4Helper2 : SourceFile :=
  ⟨"h2.tsx", nl [.varStmt (nl [.varDecl (.ident "h")
    (.some (.arrow (nl [.param (.ident "t") (.some .tyFunc)])
      (.block (nl [.retStmt (.some (.call (.ident "t")
        (nl [.strLit "k2"])))]))))])]⟩

/- `h(useTranslations('N'));` -/
def c4UseFile : SourceFile :=
  ⟨"use.tsx", nl [.exprStmt (.call (.ident "h")
    (nl [.call (.ident "useTranslations") (nl [.strLit "N"])]))]⟩

/- A function containing
   `const t = useTranslations('NS'); const key = compute(); t(key);`. -/
def c5File : SourceFile :=
  ⟨"dyn.tsx", nl [.funcDecl (nl [
    .varStmt (nl [.varDecl (.ident "t")
      (.some (.call (.ident "useTranslations") (nl [.strLit "NS"])))]),
    .varStmt (nl [.varDecl (.ident "key")
      (.some (.call (.ident "compute") NodeList.nil))]),
    .exprStmt (.call (.ident "t") (nl [.ident "key"]))])]⟩

/- `const t = await getTranslations({locale, namespace: 'NS'})`. -/
def c6TwoPropDecl : Node :=
  .varDecl (.ident "t")
    (.some (.awaitE (.call (.ident "getTranslations")
      (nl [.objLit (nl [.shorthandProp "locale",
        .propAssign (.ident "namespace") (.strLit "NS")])]))))

/- `const t = await getTranslations({namespace: 'NS', locale,
    other: 'x', namespace: dynValue})` — one property of each kind. -/
def c6FourPropDecl : Node :=
  .varDecl (.ident "t")
    (.some (.awaitE (.call (.ident "getTranslations")
      (nl [.objLit (nl [
        .propAssign (.ident "namespace") (.strLit "NS"),
        .shorthandProp "locale",
        .propAssign (.ident "other") (.strLit "x"),
        .propAssign (.ident "namespace") (.ident "dynValue")])]))))

/- `const t = useTranslations('Outer');
    function f() { const t = useTranslations('Inner'); t('x'); }` -/
def c7File : SourceFile :=
  ⟨"shadow.tsx", nl [
    .varStmt (nl [.varDecl (.ident "t")
      (.some (.call (.ident "useTranslations") (nl [.strLit "Outer"])))]),
    .funcDecl (nl [
      .varStmt (nl [.varDecl (.ident "t")
        (.some (.call (.ident "useTranslations") (nl [.strLit "Inner"])))]),
      .exprStmt (.call (.ident "t") (nl [.strLit "x"]))])]⟩

/- `const [data, t] = await <callee>([loadData(), getTranslations('asyncNS')])`
   with the awaited callee supplied as a parameter. -/
def c9Decl (callee : Node) : Node :=
  .varDecl
    (.arrayBinding (nl [.bindingElem (.ident "data"),
      .bindingElem (.ident "t")]))
    (.some (.awaitE (.call callee
      (nl [.arrayLit (nl [
        .call (.ident "loadData") NodeList.nil,
        .call (.ident "getTranslations") (nl [.strLit "asyncNS"])])]))))

/- `const a = useTranslations('NS'); const b = useTranslations('NS'); a(x);` -/
def c10Stmts : NodeList :=
  nl [
    .varStmt (nl [.varDecl (.ident "a")
      (.some (.call (.ident "useTranslations") (nl [.strLit "NS"])))]),
    .varStmt (nl [.varDecl (.ident "b")
      (.some (.call (.ident "useTranslations") (nl [.strLit "NS"])))]),
    .exprStmt (.call (.ident "a") (nl [.ident "x"]))]

/-
  Sorting lemmas for the output ordering.
-/

theorem mem_insertKeySorted {x a : FoundKey} :
    ∀ {l : List FoundKey}, x ∈ insertKeySorted a l → x = a ∨ x ∈ l := by
  intro l
  induction l with
  | nil => intro h; simp [insertKeySorted] at h; exact Or.inl h
  | cons b t ih =>
    intro h
    by_cases hc : sortComparatorLe a b
    · simp [insertKeySorted, hc] at h
      rcases h with h | h | h
      · exact Or.inl h
      · exact Or.inr (by simp [h])
      · exact Or.inr (by simp [h])
    · simp [insertKeySorted, hc] at h
      rcases h with h | h
      · exact Or.inr (by simp [h])
      · rcases ih h with h1 | h1
        · exact Or.inl h1
        · exact Or.inr (by simp [h1])

theorem pairwise_insertKeySorted (a : FoundKey) :
    ∀ (l : List FoundKey), l.Pairwise keyLe →
      (insertKeySorted a l).Pairwise keyLe := by
  intro l
  induction l with
  | nil => intro _; simp [insertKeySorted]
  | cons b t ih =>
    intro h
    rcases List.pairwise_cons.mp h with ⟨hb, ht⟩
    cases hc : sortComparatorLe a b with
    | true =>
      have hab : keyLe a b := by
        cases hd : decide (b.key < a.key) with
        | false => exact le_of_not_lt (of_decide_eq_false hd)
        | true => exact absurd hc (by simp only [sortComparatorLe, hd]; decide)
      have hrw : insertKeySorted a (b :: t) = a :: b :: t := by
        simp [insertKeySorted, hc]
      rw [hrw]
      refine List.pairwise_cons.mpr ⟨?_, h⟩
      intro x hx
      rcases List.mem_cons.mp hx with rfl | hx
      · exact hab
      · exact le_trans hab (hb x hx)
    | false =>
      have hba : keyLe b a := by
        cases hd : decide (b.key < a.key) with
        | true => exact le_of_lt (of_decide_eq_true hd)
        | false => exact absurd hc (by simp only [sortComparatorLe, hd]; decide)
      have hrw : insertKeySorted a (b :: t) = b :: insertKeySorted a t := by
        simp [insertKeySorted, hc]
      rw [hrw]
      refine List.pairwise_cons.mpr ⟨?_, ih ht⟩
      intro x hx
      rcases mem_insertKeySorted hx with rfl | hx
      · exact hba
      · exact hb x hx

theorem pairwise_sortFoundKeys : ∀ (l : List FoundKey),
    (sortFoundKeys l).Pairwise keyLe := by
  intro l
  induction l with
  | nil => simp [sortFoundKeys]
  | cons a t ih => exact pairwise_insertKeySorted a _ ih

/-
  Claim theorems.
-/

/-- Claim C1 (code bug).  The source's own comment (lines 334-338) says both
inline chained shapes are recognised and their combined key emitted, and
the claim states the same; but for the direct-call shape
`useTranslations('ns1')('one');` the code only assigns the local
inlineNamespace (lines 343-353) and the key emission exists solely in the
property-access branch (lines 354-380), so extraction emits nothing for it,
while the method shape `useTranslations('ns1').rich('one');` does emit
`ns1.one`. -/
theorem c1_inline_direct_call_emits_nothing :
    extract [c1DirectFile] = []
    ∧ extract [c1MethodFile] =
        [⟨"ns1.one", "inline.tsx", Option.some "ns1", false⟩] := by
  decide

/-- Claim C2, counterexample.  With the helper exactly as the claim writes
it — `const schema = (t) => t('required')`, no type annotation — Pass 1
registers nothing, so `schema(useTranslations('Form'))` produces no key at
all; the same happens when the parameter is annotated but the whole arrow
body is the single call `t('required')`, because the body scan starts at
the body's children. -/
theorem c2_untyped_helper_yields_nothing :
    extract [c2UntypedHelperFile, c2UseFile] = []
    ∧ extract [c2TypedExprBodyHelperFile, c2UseFile] = [] := by
  decide

/-- Claim C2, amended.  When the helper's first parameter carries a
function-type (or type-reference) annotation and the translator calls sit
strictly inside the body — `const schema = (t: (key: string) => string) =>
{ return t('required'); }` — the call `schema(useTranslations('Form'))`
yields exactly one record per keysUsed entry, here `Form.required`
qualified by the inline literal namespace. -/
theorem c2_annotated_helper_emits_key :
    extract [c2TypedHelperFile, c2UseFile] =
      [⟨"Form.required", "use.tsx", Option.some "Form", false⟩] := by
  decide

/-- Claim C3, counterexample.  An acquisition whose argument is present but
not a string literal (`const t = useTranslations(ns)` and
`const t = await getTranslations(ns)` with identifier `ns`) pushes no
NamespaceFrame at all: the stack stays empty, contradicting the claim that
an empty-named frame is pushed and that acquisition never fails to push. -/
theorem c3_nonliteral_argument_pushes_no_frame :
    (visit [] "acq.tsx" c3UseNonLit ⟨[], []⟩) = ⟨[], []⟩
    ∧ (visit [] "acq.tsx" c3GetNonLit ⟨[], []⟩) = ⟨[], []⟩ := by
  decide

/-- Claim C3, amended.  Only an absent argument produces the empty-named
frame: `useTranslations()` and `await getTranslations()` each push
one frame with namespace name "" bound to the declared variable, while a
present non-literal argument pushes nothing. -/
theorem c3_absent_vs_nonliteral_argument :
    (visit [] "acq.tsx" c3UseAbsent ⟨[], []⟩) = ⟨[⟨"", "t", false⟩], []⟩
    ∧ (visit [] "acq.tsx" c3GetAbsent ⟨[], []⟩) = ⟨[⟨"", "t", false⟩], []⟩
    ∧ (visit [] "acq2.tsx" c3UseNonLit ⟨[], []⟩).namespaces = []
    ∧ (visit [] "acq2.tsx" c3GetNonLit ⟨[], []⟩).namespaces = [] := by
  decide

/-- Claim C4, counterexample.  With helper `h` registered by two files
(keys `k1` then `k2`) and a call `h(useTranslations('N'))`, the emitted
keys do not include `N.k2`: resolution does not use the most recently
registered record. -/
theorem c4_last_registered_not_used :
    ((extract [c4Helper1, c4Helper2, c4UseFile]).map
      (fun fk => fk.key)).contains "N.k2" = false := by
  decide

/-- Claim C4, amended.  The registry lookup is Array.prototype.find over a
push-ordered array, so an indirect call resolves to the EARLIEST registered
record with that functionName (first-write-wins): the call emits exactly
`N.k1`, the keys of the record registered first. -/
theorem c4_first_registered_wins :
    extract [c4Helper1, c4Helper2, c4UseFile] =
      [⟨"N.k1", "use.tsx", Option.some "N", false⟩] := by
  decide

/-- Claim C5.  For a function-like scope containing
`const t = useTranslations('NS'); const key = compute(); t(key);`,
extraction yields exactly the placeholder record with key "NS" and
meta.dynamic = true — emitted at the exit of the function-like scope that
introduced the frame — and no literal-key record for the dynamic call. -/
theorem c5_dynamic_placeholder :
    extract [c5File] = [⟨"NS", "dyn.tsx", Option.some "NS", true⟩] := by
  decide

/-- Claim C6, counterexample.  For
`const t = await getTranslations({locale, namespace: 'NS'})` the visitor
pushes TWO frames — an empty-named one for the `locale` property (the else
branch of source lines 199-211) and the literal-named one — contradicting
the claim that only matching `namespace` properties push a frame. -/
theorem c6_other_property_pushes_frame :
    (visit [] "obj.tsx" c6TwoPropDecl ⟨[], []⟩)
      = ⟨[⟨"", "t", false⟩, ⟨"NS", "t", false⟩], []⟩ := by
  decide

/-- Claim C6, amended.  Exactly one frame is pushed per property of the
object literal, in property order: a property assignment named `namespace`
with a string-literal initializer pushes a frame named by that literal, and
every other property (shorthand, other name, or non-literal initializer)
pushes a frame with the empty namespace name. -/
theorem c6_one_frame_per_property :
    (visit [] "obj.tsx" c6FourPropDecl ⟨[], []⟩)
      = ⟨[⟨"NS", "t", false⟩, ⟨"", "t", false⟩, ⟨"", "t", false⟩,
          ⟨"", "t", false⟩], []⟩ := by
  decide

/-- Claim C7.  Shadowing: with `t` bound to namespace Outer at file level
and rebound to Inner inside a nested function, `t('x')` in the nested
function emits `Inner.x`; and in general, after pushing a frame for
variable `v`, identifier resolution for `v` returns exactly that most
recently pushed frame (innermost-first stack scan). -/
theorem c7_shadowing_innermost_wins :
    extract [c7File] =
      [⟨"Inner.x", "shadow.tsx", Option.some "Inner", false⟩]
    ∧ ∀ (stack : List NsFrame) (nm v : String) (dyn : Bool),
        getCurrentNamespaceForIdentifier (stack ++ [⟨nm, v, dyn⟩]) v
          = Option.some ⟨nm, v, dyn⟩ := by
  refine ⟨by decide, ?_⟩
  intro stack nm v dyn
  simp [getCurrentNamespaceForIdentifier, List.find?]

/-- Claim C8.  For every input file list the sequence returned by extract
is sorted ascending by the key field: each element's key is ≤ the key of
every later element (in particular the one that follows it). -/
theorem c8_output_sorted_by_key (files : List SourceFile) :
    (extract files).Pairwise (fun a b => a.key ≤ b.key) := by
  exact pairwise_sortFoundKeys _

/-- Claim C9.  The array-destructured acquisition does not require the
awaited callee to be Promise.all: for
`const [data, t] = await <callee>([loadData(), getTranslations('asyncNS')])`
a frame ⟨asyncNS, t⟩ is pushed for the binding element at the position of
the getTranslations element, both for an arbitrary identifier callee
(`fetchAll`) and for `Promise.all` itself. -/
theorem c9_destructured_any_callee :
    (visit [] "async.tsx" (c9Decl (.ident "fetchAll")) ⟨[], []⟩)
      = ⟨[⟨"asyncNS", "t", false⟩], []⟩
    ∧ (visit [] "async.tsx" (c9Decl (.propAccess (.ident "Promise") "all"))
        ⟨[], []⟩)
      = ⟨[⟨"asyncNS", "t", false⟩], []⟩ := by
  decide

/-- Claim C10.  Marking dynamic operates by namespace name, not frame
identity: setNamespaceAsDynamic maps every frame to one with the same name
and variable (never changed) and with dynamic flipped to true exactly when
the frame's name matches; and end-to-end, a dynamic call through variable
`a` also flags the frame bound to the different variable `b` of the same
namespace name. -/
theorem c10_dynamic_marking_by_name :
    (∀ (stack : List NsFrame) (nm : String) (i : Nat),
        (setNamespaceAsDynamic stack nm)[i]?
          = (stack[i]?).map (fun fr =>
              ⟨fr.name, fr.varName, fr.dynamic || (fr.name == nm)⟩))
    ∧ visitList [] "mark.tsx" c10Stmts ⟨[], []⟩
        = ⟨[⟨"NS", "a", true⟩, ⟨"NS", "b", true⟩], []⟩ := by
  refine ⟨?_, by decide⟩
  intro stack nm i
  simp only [setNamespaceAsDynamic, List.getElem?_map]
  cases h : stack[i]? with
  | none => rfl
  | some fr =>
    simp only [Option.map_some']
    by_cases hn : fr.name == nm
    · simp [hn]
    · simp [hn]
